import Mathlib

/-!
Verification development for the health-auto-export server's ingestion
normalization and idempotent-upsert pipeline.

The definitions below are a shallow embedding of the server source:
* `parseDate` embeds the `parseDate` utility (server utils),
* the metric store model embeds `saveMetrics` (controllers/metrics.ts):
  MongoDB `bulkWrite` of `updateOne` upserts with filter (source, date)
  and a `$set` update,
* `mapWorkoutData` and `mapRoute` embed the workout normalizer
  (models/Workout.ts),
* `ingestData` embeds the ingestion controller (controllers/ingester.ts).

JavaScript dates are modelled as epoch milliseconds (`Int`); an invalid
Date is `none : Option Int`.  JavaScript numbers used as timestamps and
quantities are modelled as `Int` / `ℚ`.
-/

/-- Input to a timestamp field as it arrives over the wire: a JS number,
a JS string, or `undefined`. -/
inductive DateInput where
  | num (n : Int)
  | str (s : String)
  | undef
deriving DecidableEq

/-- JS falsiness of a `DateInput`: the number `0`, the empty string and
`undefined` are falsy (`!dateInput` in the source). -/
def DateInput.falsy : DateInput → Bool
  | .num n => n == 0
  | .str s => s.toList.isEmpty
  | .undef => true

/-- Absolute range of a valid JS Date time value: `new Date(n)` is an
Invalid Date when `|n|` exceeds 8.64e15 milliseconds. -/
def jsTimeValid (t : Int) : Bool :=
  t.natAbs ≤ 8640000000000000

/-- Accumulate a decimal digit sequence; any non-digit character makes the
whole string non-numeric. -/
def natOfDigitsAux : List Char → Nat → Option Nat
  | [], acc => some acc
  | c :: cs, acc =>
      if c.isDigit then natOfDigitsAux cs (acc * 10 + (c.toNat - 48)) else none

/-- A non-empty all-digit character list as a natural number. -/
def natOfDigits? (cs : List Char) : Option Nat :=
  if cs.isEmpty then none else natOfDigitsAux cs 0

/-- Model of JS `Number(s)` restricted to integral decimal strings: an
optionally signed digit string converts; every other string is `NaN`
(`none`).  This is the only shape of numeric string the ingestion paths
feed to `Number`. -/
def jsNumber? (s : String) : Option Int :=
  match s.toList with
  | '-' :: rest => (natOfDigits? rest).map (fun n => -(n : Int))
  | '+' :: rest => (natOfDigits? rest).map (fun n => (n : Int))
  | cs => (natOfDigits? cs).map (fun n => (n : Int))

/-- Split a character list at every separator character satisfying `p`. -/
def splitListAux (p : Char → Bool) : List Char → List Char → List (List Char)
  | [], acc => [acc.reverse]
  | c :: cs, acc =>
      if p c then acc.reverse :: splitListAux p cs []
      else splitListAux p cs (c :: acc)

/-- Split a character list on a separator character. -/
def splitList (p : Char → Bool) (cs : List Char) : List (List Char) :=
  splitListAux p cs []

/-- Gregorian leap year. -/
def isLeap (y : Int) : Bool :=
  (y % 4 == 0 && y % 100 != 0) || y % 400 == 0

/-- Number of days in a month of the proleptic Gregorian calendar. -/
def daysInMonth (y m : Int) : Int :=
  if m == 2 then (if isLeap y then 29 else 28)
  else if m == 4 || m == 6 || m == 9 || m == 11 then 30
  else 31

/-- Days from 1970-01-01 to the civil date y-m-d (standard civil-date
algorithm, integer arithmetic). -/
def daysFromCivil (y m d : Int) : Int :=
  let y' := if m ≤ 2 then y - 1 else y
  let era := (if 0 ≤ y' then y' else y' - 399) / 400
  let yoe := y' - era * 400
  let mp := (m + 9) % 12
  let doy := (153 * mp + 2) / 5 + d - 1
  let doe := yoe * 365 + yoe / 4 - yoe / 100 + doy
  era * 146097 + doe - 719468

/-- Parse a `"HH:MM:SS"` clock component to milliseconds past midnight. -/
def parseTimePart (cs : List Char) : Option Int :=
  match splitList (· == ':') cs with
  | [hh, mm, ss] =>
      match natOfDigits? hh, natOfDigits? mm, natOfDigits? ss with
      | some h, some m, some s =>
          if h < 24 && m < 60 && s < 60 then
            some (((h * 3600 + m * 60 + s : Nat) : Int) * 1000)
          else none
      | _, _, _ => none
  | _ => none

/-- Parse a year-month-day date component separated by `sep` into a civil
date, checking month and day-of-month bounds. -/
def parseDatePart (sep : Char) (cs : List Char) : Option (Int × Int × Int) :=
  match splitList (· == sep) cs with
  | [ys, ms, ds] =>
      match natOfDigits? ys, natOfDigits? ms, natOfDigits? ds with
      | some y, some m, some d =>
          if 1 ≤ m && m ≤ 12 && 1 ≤ d && (d : Int) ≤ daysInMonth y m then
            some ((y : Int), (m : Int), (d : Int))
          else none
      | _, _, _ => none
  | _ => none

/-- Model of the JS `Date` string constructor restricted to the formats
the server feeds it: a `Y-M-D` or `Y/M/D` date, optionally followed by a
space and a `"HH:MM:SS"` clock.  Everything else is an Invalid Date
(`none`).  Local-time versus UTC interpretation is collapsed to UTC; it
does not affect validity. -/
def jsParseDateString (sep : Char) (s : String) : Option Int :=
  match splitList (· == ' ') s.toList with
  | [datePart] =>
      (parseDatePart sep datePart).map
        (fun ymd => daysFromCivil ymd.1 ymd.2.1 ymd.2.2 * 86400000)
  | [datePart, timePart] =>
      match parseDatePart sep datePart, parseTimePart timePart with
      | some ymd, some t => some (daysFromCivil ymd.1 ymd.2.1 ymd.2.2 * 86400000 + t)
      | _, _ => none
  | _ => none

/-- Model of `parseDate` from the server utils.  Mirrors the source
branch for branch: falsy input returns null; a number or numeric string
is an epoch; a string containing a slash or a dash goes through the
`Date` string constructor; anything else returns null. -/
def parseDate (dateInput : DateInput) : Option Int :=
  if dateInput.falsy then none
  else
    match dateInput with
    | .num n => if jsTimeValid n then some n else none
    | .str s =>
        match jsNumber? s with
        | some n => if jsTimeValid n then some n else none
        | none =>
            if s.toList.any (· == '/') then jsParseDateString '/' s
            else if s.toList.any (· == '-') then jsParseDateString '-' s
            else none
    | .undef => none

/-! ## Metric documents and the MongoDB upsert model

`saveMetrics` (controllers/metrics.ts) groups the incoming metric batch
by kind and, per kind, issues one `bulkWrite` of `updateOne` operations
with `filter := (source, date)`, `update := dollar-set of the record` and
`upsert := true`.  A MongoDB collection is modelled as a list of
documents; a document is the key pair (source, date) plus an association
list of the remaining fields.  Field values are uninterpreted strings:
the claims are about which fields a stored document carries, never about
arithmetic on them. -/

/-- A normalized metric record and, identically shaped, a stored metric
document: key pair (source, date) plus the non-key fields. -/
structure MetricRecord where
  source : String
  date : Int
  fields : List (String × String)
deriving DecidableEq

/-- First-match lookup of a field name in a document's field list. -/
def fieldLookup : List (String × String) → String → Option String
  | [], _ => none
  | (k, v) :: rest, x => if k == x then some v else fieldLookup rest x

/-- One assignment of a dollar-set update: replace the first occurrence
of the key in place, or append the field when absent (MongoDB dollar-set
on one path). -/
def setField : List (String × String) → String × String → List (String × String)
  | [], a => [a]
  | (k, v) :: rest, a =>
      if k == a.1 then (k, a.2) :: rest else (k, v) :: setField rest a

/-- A whole dollar-set update document applied to an existing field
list: its assignments applied left to right. -/
def setFields (fs : List (String × String)) (asg : List (String × String)) :
    List (String × String) :=
  asg.foldl setField fs

/-- The value the last assignment to `x` in an assignment list gives it,
if any assigns `x` at all. -/
def lastAssign : List (String × String) → String → Option String
  | [], _ => none
  | a :: rest, x =>
      match lastAssign rest x with
      | some v => some v
      | none => if a.1 == x then some a.2 else none

/-- Left-biased choice on options (the shape `new field or else old
field` the dollar-set lemmas produce). -/
def orOpt : Option String → Option String → Option String
  | some v, _ => some v
  | none, w => w

/-- The `updateOne` filter of `saveMetrics`: the document matches the
record's (source, date) pair. -/
def matchesKey (m d : MetricRecord) : Bool :=
  d.source == m.source && d.date == m.date

/-- The document an upsert inserts when no document matches the filter:
the filter's equality fields plus the dollar-set fields applied to an
empty document. -/
def mkDoc (m : MetricRecord) : MetricRecord :=
  { source := m.source, date := m.date, fields := setFields [] m.fields }

/-- MongoDB `updateOne` with `upsert := true`: update the first document
matching the filter with the dollar-set document, or insert a fresh
document when none matches. -/
def applyUpsert : List MetricRecord → MetricRecord → List MetricRecord
  | [], m => [mkDoc m]
  | d :: ds, m =>
      if matchesKey m d then { d with fields := setFields d.fields m.fields } :: ds
      else d :: applyUpsert ds m

/-- First document of a collection carrying the key pair (source, date). -/
def findDoc? : List MetricRecord → String → Int → Option MetricRecord
  | [], _, _ => none
  | d :: ds, s, t => if d.source == s && d.date == t then some d else findDoc? ds s t

/-- One `bulkWrite` call: its `updateOne` operations applied in order. -/
def bulkWrite (coll : List MetricRecord) (ms : List MetricRecord) : List MetricRecord :=
  ms.foldl applyUpsert coll

/-- One raw record of a metric batch entry as received on the wire. -/
structure RawRecord where
  source : String
  timestamp : DateInput
  fields : List (String × String)
deriving DecidableEq

/-- One entry of the wire `metrics` array: a kind name, its units and
its raw records. -/
structure RawMetricBatch where
  name : String
  units : String
  data : List RawRecord
deriving DecidableEq

/-- Modelled from the spec: `mapMetric` lives in models/Metric.ts, which
is not under src.  Per spec section 4.1 the normalizer resolves the
record's timestamp with the section's timestamp rule (the `parseDate`
rule embedded above) and skips the single record when the timestamp does
not resolve; value-bearing fields pass through into the normalized
record. -/
def normalizeRawRecord (r : RawRecord) : Option MetricRecord :=
  (parseDate r.timestamp).map (fun d => { source := r.source, date := d, fields := r.fields })

/-- Modelled from the spec: normalization of one metric batch entry maps
its records through `normalizeRawRecord`, dropping the records whose
timestamps do not resolve (spec section 4.1: skipped, not fatal). -/
def mapMetric (b : RawMetricBatch) : List MetricRecord :=
  b.data.filterMap normalizeRawRecord

/-- The records `saveMetrics` sends to the collection of `kind`: the
per-kind group built by the grouping reduce, which concatenates the
normalized records of the batch entries named `kind` in batch order. -/
def mapMetricAll : List RawMetricBatch → String → List MetricRecord
  | [], _ => []
  | b :: rest, kind =>
      (if b.name == kind then mapMetric b else []) ++ mapMetricAll rest kind

/-- The metric side of the store: one collection per metric kind. -/
def MetricStore : Type := String → List MetricRecord

/-- The store effect of a fully successful `saveMetrics` call: per kind,
one `bulkWrite` of that kind's group into that kind's collection (kinds
absent from the batch get an empty operation list, leaving their
collection unchanged). -/
def metricsWrite (store : MetricStore) (batch : List RawMetricBatch) : MetricStore :=
  fun kind => bulkWrite (store kind) (mapMetricAll batch kind)

/-! ## Proof-support views of the upsert model -/

/-- All dollar-set assignments of a record sequence, flattened in order. -/
def flatFields : List MetricRecord → List (String × String)
  | [] => []
  | m :: rest => m.fields ++ flatFields rest

/-- Evolution of one key's document fields under a record sequence: each
record replaces the fields with its dollar-set applied to the current
fields (empty when the document does not exist yet). -/
def chainFields (v : Option (List (String × String))) (ms : List MetricRecord) :
    Option (List (String × String)) :=
  ms.foldl (fun acc m => some (setFields (acc.getD []) m.fields)) v

/-- The records of a sequence whose filter is the key pair (s, t). -/
def keyRecs (ms : List MetricRecord) (s : String) (t : Int) : List MetricRecord :=
  ms.filter (fun m => m.source == s && m.date == t)

/-- Field lookup through an optional document. -/
def docFieldLookup (o : Option MetricRecord) (x : String) : Option String :=
  o.bind (fun d => fieldLookup d.fields x)

/-! ## Outcomes, the store environment and `saveMetrics` -/

/-- One group's entry of the ingestion response: `success` plus the
optional `message` and `error` string fields the controllers populate. -/
structure GroupOutcome where
  success : Bool
  message : Option String
  error : Option String
deriving DecidableEq

/-- The merged ingestion response: the `metrics` and `workouts` group
outcomes (models/IngestResponse.ts is not under src; the shape is fixed
by how the controllers in src populate and merge it). -/
structure IngestResponse where
  metrics : Option GroupOutcome
  workouts : Option GroupOutcome
deriving DecidableEq

/-- Abstraction of the document store's failure behaviour for one call:
which kinds' metric `bulkWrite` operations reject, and whether the
workouts write rejects. -/
structure StoreEnv where
  failKind : String → Bool
  failWorkouts : Bool

/-- The distinct kind names of a batch in first-occurrence order: the
iteration order of the grouping reduce's accumulator in `saveMetrics`. -/
def kindsOf : List RawMetricBatch → List String
  | [] => []
  | b :: rest => b.name :: (kindsOf rest).filter (fun k => k != b.name)

/-- Abstraction of the driver error message a failed bulk write carries. -/
def writeErrorMessage (kind : String) : String :=
  "bulk write failed: " ++ kind

/-- Response side of `saveMetrics` (controllers/metrics.ts): an empty or
absent metrics array short-circuits to a success outcome carrying the
no-data text in the `error` field; otherwise the all-kind `Promise.all`
either resolves (success with a count message) or rejects with the first
failing kind's error, which the catch block turns into a single failure
outcome for the whole metrics group. -/
def saveMetricsOutcome (env : StoreEnv) (batch : List RawMetricBatch) : GroupOutcome :=
  if batch.isEmpty then
    { success := true, message := none, error := some "No metrics data provided" }
  else
    match (kindsOf batch).find? env.failKind with
    | some k => { success := false, message := none, error := some (writeErrorMessage k) }
    | none =>
        { success := true,
          message := some (toString batch.length ++ " metrics saved successfully"),
          error := none }

/-- Store side of `saveMetrics`: every kind's `bulkWrite` is launched
before the `Promise.all`, so each kind's collection receives its own
group regardless of other kinds failing.  A kind whose own write fails
is modelled as leaving its collection unchanged (the driver may in fact
apply a prefix of the ordered operations; no claim depends on the failed
collection's content). -/
def saveMetricsStore (env : StoreEnv) (store : MetricStore) (batch : List RawMetricBatch) :
    MetricStore :=
  if batch.isEmpty then store
  else fun kind =>
    if env.failKind kind then store kind
    else bulkWrite (store kind) (mapMetricAll batch kind)

/-! ## Workout normalization (models/Workout.ts) -/

/-- Model of `new Date(x)` on the values the workout mapper feeds it:
numbers within the representable range, and the date-string formats of
section 4.1.  An unrepresentable or unknown input is an Invalid Date. -/
def jsNewDate : DateInput → Option Int
  | .num n => if jsTimeValid n then some n else none
  | .str s =>
      if s.toList.any (· == '/') then jsParseDateString '/' s
      else if s.toList.any (· == '-') then jsParseDateString '-' s
      else none
  | .undef => none

/-- One raw heart-rate sample of `heartRateData` (`IHeartRate`). -/
structure RawHRSample where
  Min : ℚ
  Avg : ℚ
  Max : ℚ
  date : DateInput
  units : String
  source : String
deriving DecidableEq

/-- A normalized heart-rate sample: the date resolved to a JS Date. -/
structure HRSampleDoc where
  Min : ℚ
  Avg : ℚ
  Max : ℚ
  date : Option Int
  units : String
  source : String
deriving DecidableEq

/-- The per-sample conversion of `mapWorkoutData`: spread the sample and
replace `date` by `new Date(date)`. -/
def convHRSample (h : RawHRSample) : HRSampleDoc :=
  { Min := h.Min, Avg := h.Avg, Max := h.Max, date := jsNewDate h.date,
    units := h.units, source := h.source }

/-- One raw GPS point of a workout's `route` (`ILocation`).  The
optional accuracy, course, speed and altitude numbers are pure spread
passthrough in `mapRoute` and no claim mentions them, so they are not
carried in the embedding. -/
structure RawLocation where
  latitude : ℚ
  longitude : ℚ
  timestamp : DateInput
deriving DecidableEq

/-- A normalized GPS point: the timestamp resolved to a JS Date. -/
structure LocationDoc where
  latitude : ℚ
  longitude : ℚ
  timestamp : Option Int
deriving DecidableEq

/-- The per-point conversion of `mapRoute`: spread the point and replace
`timestamp` by `new Date(timestamp)`. -/
def convLocation (l : RawLocation) : LocationDoc :=
  { latitude := l.latitude, longitude := l.longitude, timestamp := jsNewDate l.timestamp }

/-- A raw workout as received (`WorkoutData`).  `end` is a Lean keyword
and is embedded as `end_`.  The optional quantity-metric sub-records
(distance, energies, cadences, speed, flights, elevation, temperature,
humidity, intensity, step count, heart-rate recovery) all undergo the
same independent `convertMetricDate` spread; no claim mentions them and
they do not interact with the fields carried here, so they are not part
of the embedding. -/
structure RawWorkout where
  id : String
  name : String
  start : DateInput
  end_ : DateInput
  duration : ℚ
  heartRateData : Option (List RawHRSample)
  maxHeartRate : Option ℚ
  avgHeartRate : Option ℚ
  route : Option (List RawLocation)
deriving DecidableEq

/-- The workout document `mapWorkoutData` produces. -/
structure NormalizedWorkout where
  workoutId : String
  name : String
  start : Option Int
  end_ : Option Int
  duration : ℚ
  heartRateData : Option (List HRSampleDoc)
  maxHeartRate : Option ℚ
  avgHeartRate : Option ℚ
deriving DecidableEq

/-- JS truthiness of an optional numeric field: absent (`undefined`) and
`0` are falsy (rationals model the JS numbers in play; `NaN`, also
falsy, has no counterpart here). -/
def jsTruthyQ : Option ℚ → Bool
  | none => false
  | some q => !(q == 0)

/-- `Math.max` over a non-empty argument list. -/
def listMaxQ : List ℚ → ℚ
  | [] => 0
  | [x] => x
  | x :: rest => max x (listMaxQ rest)

/-- Sum of a list of rationals (the `reduce` accumulating `Avg`). -/
def qSum : List ℚ → ℚ
  | [] => 0
  | x :: rest => x + qSum rest

/-- Model of `Number(x.toFixed(2))` on the non-negative magnitudes in
play: round to two decimals, half away from zero. -/
def roundTo2 (q : ℚ) : ℚ :=
  ((⌊q * 100 + 1 / 2⌋ : Int) : ℚ) / 100

/-- Embedding of `mapWorkoutData` (models/Workout.ts): rename `id` to
`workoutId`, convert the embedded dates, and derive `maxHeartRate` and
`avgHeartRate` from the converted heart-rate series when the supplied
field is falsy and the series is a non-empty array. -/
def mapWorkoutData (w : RawWorkout) : NormalizedWorkout :=
  let hr := w.heartRateData.map (List.map convHRSample)
  let maxHR :=
    if jsTruthyQ w.maxHeartRate then w.maxHeartRate
    else
      match hr with
      | some (h :: t) => some (listMaxQ ((h :: t).map HRSampleDoc.Max))
      | _ => w.maxHeartRate
  let avgHR :=
    if jsTruthyQ w.avgHeartRate then w.avgHeartRate
    else
      match hr with
      | some (h :: t) =>
          some (roundTo2 (qSum ((h :: t).map HRSampleDoc.Avg) / ((h :: t).length : ℚ)))
      | _ => w.avgHeartRate
  { workoutId := w.id, name := w.name, start := jsNewDate w.start,
    end_ := jsNewDate w.end_, duration := w.duration, heartRateData := hr,
    maxHeartRate := maxHR, avgHeartRate := avgHR }

/-! ## Routes -/

/-- The value `mapRoute` returns: `locations` is `undefined` when the
raw workout has no `route` key (optional chaining in the source). -/
structure RouteDoc where
  workoutId : String
  locations : Option (List LocationDoc)
deriving DecidableEq

/-- Embedding of `mapRoute` (models/Workout.ts). -/
def mapRoute (w : RawWorkout) : RouteDoc :=
  { workoutId := w.id, locations := w.route.map (List.map convLocation) }

/-- A stored route document of the `workout_routes` collection. -/
structure StoredRoute where
  workoutId : String
  locations : List LocationDoc
deriving DecidableEq

/-- The `routeSchema` validator (models/Workout.ts): the locations array
must contain at least one point. -/
def validRouteLocations (locs : List LocationDoc) : Bool :=
  locs.length > 0

/-- Modelled from the spec: `saveWorkouts` (controllers/workouts.ts) is
not under src.  Per spec sections 4.2 and 7, a workout without an
identifier is excluded, and a route is produced from `mapRoute` exactly
when the raw workout carries a non-empty location sequence; an empty raw
sequence omits the route entirely. -/
def routeFor (w : RawWorkout) : Option StoredRoute :=
  if w.id = "" then none
  else
    match (mapRoute w).locations with
    | some (l :: ls) => some { workoutId := (mapRoute w).workoutId, locations := l :: ls }
    | _ => none

/-- Modelled from the spec: the routes one `saveWorkouts` call stores. -/
def routesToStore (ws : List RawWorkout) : List StoredRoute :=
  ws.filterMap routeFor

/-- Modelled from the spec: upsert of a route document keyed by its
workout identifier (replace the first match or append). -/
def routeUpsert : List StoredRoute → StoredRoute → List StoredRoute
  | [], r => [r]
  | d :: ds, r => if d.workoutId == r.workoutId then r :: ds else d :: routeUpsert ds r

/-- Modelled from the spec: the route-collection effect of one
`saveWorkouts` call; an empty group issues no I/O and a failing write
leaves the collection unchanged. -/
def saveWorkoutsStore (env : StoreEnv) (routes : List StoredRoute) (ws : List RawWorkout) :
    List StoredRoute :=
  if ws.isEmpty || env.failWorkouts then routes
  else (routesToStore ws).foldl routeUpsert routes

/-- Modelled from the spec: the outcome `saveWorkouts` reports, shaped
like the metrics outcomes: an empty group reports success without I/O
(spec section 4.4), a failed write reports failure with an error, and
otherwise the group reports success. -/
def saveWorkoutsOutcome (env : StoreEnv) (ws : List RawWorkout) : GroupOutcome :=
  if ws.isEmpty then { success := true, message := some "no records", error := none }
  else if env.failWorkouts then
    { success := false, message := none, error := some "workouts write failed" }
  else
    { success := true,
      message := some (toString ws.length ++ " workouts saved successfully"),
      error := none }

/-! ## The ingestion controller (controllers/ingester.ts) -/

/-- The request payload `data` (models/IngestData.ts is not under src;
the wire shape is fixed by the controllers and the spec): the optional
`metrics` and `workouts` arrays. -/
structure IngestData where
  metrics : Option (List RawMetricBatch)
  workouts : Option (List RawWorkout)

/-- The store state one ingestion call touches: the per-kind metric
collections and the route collection.  (The workouts collection itself
is not inspected by any claim and is not carried.) -/
structure ServerState where
  metricColls : MetricStore
  routeColl : List StoredRoute

/-- The JSON body `ingestData` responds with: the merged grouped
response, or the top-level error object of the catch block. -/
inductive HttpBody where
  | grouped (r : IngestResponse)
  | topError (error : String) (message : String)
deriving DecidableEq

/-- Embedding of `ingestData` (controllers/ingester.ts): an absent
payload throws before any group runs and the catch block answers 500
with a top-level error object; otherwise both save pipelines run, their
responses are merged (`Object.values` of the merged response is exactly
the two group outcomes), and the status is 500 when all outcomes failed,
207 when some but not all failed, 200 otherwise. -/
def ingestData (env : StoreEnv) (st : ServerState) (body : Option IngestData) :
    Nat × HttpBody × ServerState :=
  match body with
  | none => (500, .topError "Failed to process request" "No data provided", st)
  | some data =>
      let mBatch := data.metrics.getD []
      let wList := data.workouts.getD []
      let mOut := saveMetricsOutcome env mBatch
      let wOut := saveWorkoutsOutcome env wList
      let response : IngestResponse := { metrics := some mOut, workouts := some wOut }
      let st' : ServerState :=
        { metricColls := saveMetricsStore env st.metricColls mBatch,
          routeColl := saveWorkoutsStore env st.routeColl wList }
      let hasErrors := !mOut.success || !wOut.success
      let allFailed := !mOut.success && !wOut.success
      let status := if allFailed then 500 else if hasErrors then 207 else 200
      (status, .grouped response, st')

/-! ## Concrete instances used by counterexamples and witnesses -/

/-- A store environment in which every write succeeds. -/
def envOk : StoreEnv := { failKind := fun _ => false, failWorkouts := false }

/-- A store environment in which exactly the heart-rate kind's bulk
write rejects. -/
def envFailHR : StoreEnv := { failKind := fun k => k == "heart_rate", failWorkouts := false }

/-- The empty metric store. -/
def emptyStore : MetricStore := fun _ => []

/-- The empty server state. -/
def st0 : ServerState := { metricColls := emptyStore, routeColl := [] }

/-- A raw heart-rate record from one source. -/
def recW1 : RawRecord :=
  { source := "Apple Watch", timestamp := .num 1000, fields := [("qty", "70")] }

/-- A raw step-count record from the same source. -/
def recW2 : RawRecord :=
  { source := "Apple Watch", timestamp := .num 2000, fields := [("qty", "12")] }

/-- A batch carrying records of two distinct metric kinds. -/
def batchAB : List RawMetricBatch :=
  [{ name := "heart_rate", units := "count/min", data := [recW1] },
   { name := "step_count", units := "count", data := [recW2] }]

/-- A one-document collection whose document carries a `metadata` field. -/
def collMeta : List MetricRecord :=
  [{ source := "Apple Watch", date := 5, fields := [("qty", "1"), ("metadata", "x")] }]

/-- A record with the same key as `collMeta`'s document but without a
`metadata` field. -/
def recNoMeta : MetricRecord :=
  { source := "Apple Watch", date := 5, fields := [("qty", "2")] }

/-- The first heart-rate sample of the spec's worked example. -/
def hrS1 : RawHRSample :=
  { Min := 60, Avg := 70, Max := 90, date := .num 1000, units := "count/min",
    source := "Apple Watch" }

/-- The second heart-rate sample of the spec's worked example. -/
def hrS2 : RawHRSample :=
  { Min := 62, Avg := 74, Max := 95, date := .num 2000, units := "count/min",
    source := "Apple Watch" }

/-- The spec's worked example workout: a heart-rate series and no
supplied summary fields. -/
def wEx : RawWorkout :=
  { id := "w-ex", name := "Running", start := .num 1000, end_ := .num 2000,
    duration := 30, heartRateData := some [hrS1, hrS2], maxHeartRate := none,
    avgHeartRate := none, route := none }

/-- A workout that supplies `maxHeartRate` and `avgHeartRate` as `0`
alongside a heart-rate series. -/
def wZero : RawWorkout :=
  { id := "w-zero", name := "Running", start := .num 1000, end_ := .num 2000,
    duration := 30, heartRateData := some [hrS1], maxHeartRate := some 0,
    avgHeartRate := some 0, route := none }

/-- A GPS point. -/
def loc1 : RawLocation := { latitude := 1, longitude := 2, timestamp := .num 1000 }

/-- A workout carrying a one-point route. -/
def wR : RawWorkout :=
  { id := "w1", name := "Walk", start := .num 0, end_ := .num 1, duration := 5,
    heartRateData := none, maxHeartRate := none, avgHeartRate := none,
    route := some [loc1] }

/-- A plain valid workout with no route. -/
def wPlain : RawWorkout :=
  { id := "w2", name := "Walk", start := .num 0, end_ := .num 1, duration := 5,
    heartRateData := none, maxHeartRate := none, avgHeartRate := none, route := none }

/-- A request payload with no metrics and one valid workout. -/
def dataC7 : IngestData := { metrics := none, workouts := some [wPlain] }

/-! ## Lemmas on the dollar-set update -/

theorem fieldLookup_setField (F : List (String × String)) (a : String × String) (x : String) :
    fieldLookup (setField F a) x = if a.1 == x then some a.2 else fieldLookup F x := by
  induction F with
  | nil => simp [setField, fieldLookup]
  | cons p rest ih =>
      obtain ⟨k, v⟩ := p
      by_cases hk : k = a.1
      · by_cases hx : a.1 = x <;> simp [setField, fieldLookup, hk, hx]
      · by_cases hx : k = x
        · have hax : a.1 ≠ x := fun h => hk (hx.trans h.symm)
          have hxa : ¬x = a.1 := fun h => hk (hx.trans h)
          simp [setField, fieldLookup, hk, hx, hax, hxa]
        · simp [setField, fieldLookup, hk, hx, ih]

theorem fieldLookup_setFields (A F : List (String × String)) (x : String) :
    fieldLookup (setFields F A) x = orOpt (lastAssign A x) (fieldLookup F x) := by
  induction A generalizing F with
  | nil => simp [setFields, lastAssign, orOpt]
  | cons a A ih =>
      have hcons : setFields F (a :: A) = setFields (setField F a) A := rfl
      rw [hcons, ih, fieldLookup_setField]
      cases h : lastAssign A x with
      | some v => simp [lastAssign, h, orOpt]
      | none =>
          by_cases hx : a.1 = x <;> simp [lastAssign, h, orOpt, hx]

theorem fieldLookup_setFields_idem (F A : List (String × String)) (x : String) :
    fieldLookup (setFields (setFields F A) A) x = fieldLookup (setFields F A) x := by
  rw [fieldLookup_setFields, fieldLookup_setFields]
  cases lastAssign A x <;> simp [orOpt]

/-! ## Lemmas on the upsert and bulk write -/

theorem findDoc?_applyUpsert (coll : List MetricRecord) (m : MetricRecord) (s : String) (t : Int) :
    findDoc? (applyUpsert coll m) s t =
      if m.source = s ∧ m.date = t then
        some { source := s, date := t,
               fields := setFields (((findDoc? coll s t).map MetricRecord.fields).getD [])
                 m.fields }
      else findDoc? coll s t := by
  induction coll with
  | nil =>
      by_cases h1 : m.source = s <;> by_cases h2 : m.date = t <;>
        simp [applyUpsert, findDoc?, mkDoc, h1, h2]
  | cons d ds ih =>
      by_cases hd1 : d.source = m.source <;> by_cases hd2 : d.date = m.date <;>
        by_cases h1 : m.source = s <;> by_cases h2 : m.date = t <;>
          simp_all [applyUpsert, findDoc?, matchesKey]

theorem isSome_findDoc?_applyUpsert (coll : List MetricRecord) (m : MetricRecord)
    (s : String) (t : Int) :
    (findDoc? (applyUpsert coll m) s t).isSome =
      ((findDoc? coll s t).isSome || (m.source == s && m.date == t)) := by
  rw [findDoc?_applyUpsert]
  by_cases h1 : m.source = s <;> by_cases h2 : m.date = t <;> simp [h1, h2]

theorem length_applyUpsert (coll : List MetricRecord) (m : MetricRecord) :
    (applyUpsert coll m).length =
      if (findDoc? coll m.source m.date).isSome then coll.length else coll.length + 1 := by
  induction coll with
  | nil => simp [applyUpsert, findDoc?]
  | cons d ds ih =>
      by_cases hd1 : d.source = m.source <;> by_cases hd2 : d.date = m.date <;>
        simp_all [applyUpsert, findDoc?, matchesKey] <;> split <;> rfl

theorem chainFields_cons (v : Option (List (String × String))) (m : MetricRecord)
    (ms : List MetricRecord) :
    chainFields v (m :: ms) = chainFields (some (setFields (v.getD []) m.fields)) ms := rfl

theorem chainFields_isSome (L : List MetricRecord) (v : Option (List (String × String))) :
    (chainFields v L).isSome = (v.isSome || !L.isEmpty) := by
  induction L generalizing v with
  | nil => simp [chainFields]
  | cons m ms ih =>
      rw [chainFields_cons, ih]
      simp

theorem findDoc?_bulkWrite (ms : List MetricRecord) (coll : List MetricRecord)
    (s : String) (t : Int) :
    (findDoc? (bulkWrite coll ms) s t).map MetricRecord.fields =
      chainFields ((findDoc? coll s t).map MetricRecord.fields) (keyRecs ms s t) := by
  induction ms generalizing coll with
  | nil => simp [bulkWrite, keyRecs, chainFields]
  | cons m ms ih =>
      have hb : bulkWrite coll (m :: ms) = bulkWrite (applyUpsert coll m) ms := rfl
      rw [hb, ih, findDoc?_applyUpsert]
      by_cases h1 : m.source = s <;> by_cases h2 : m.date = t
      · have hk : keyRecs (m :: ms) s t = m :: keyRecs ms s t := by
          simp [keyRecs, h1, h2]
        rw [hk, chainFields_cons]
        simp [h1, h2]
      · have hk : keyRecs (m :: ms) s t = keyRecs ms s t := by simp [keyRecs, h1, h2]
        simp [h1, h2, hk]
      · have hk : keyRecs (m :: ms) s t = keyRecs ms s t := by simp [keyRecs, h1, h2]
        simp [h1, h2, hk]
      · have hk : keyRecs (m :: ms) s t = keyRecs ms s t := by simp [keyRecs, h1, h2]
        simp [h1, h2, hk]

theorem docFieldLookup_eq_map (o : Option MetricRecord) (x : String) :
    docFieldLookup o x = (o.map MetricRecord.fields).bind (fun fs => fieldLookup fs x) := by
  cases o <;> rfl

theorem isSome_findDoc?_bulkWrite (ms : List MetricRecord) (coll : List MetricRecord)
    (s : String) (t : Int) :
    (findDoc? (bulkWrite coll ms) s t).isSome =
      ((findDoc? coll s t).isSome || !(keyRecs ms s t).isEmpty) := by
  have h := findDoc?_bulkWrite ms coll s t
  have h1 : (findDoc? (bulkWrite coll ms) s t).isSome =
      ((findDoc? (bulkWrite coll ms) s t).map MetricRecord.fields).isSome := by
    cases findDoc? (bulkWrite coll ms) s t <;> rfl
  have h2 : (findDoc? coll s t).isSome =
      ((findDoc? coll s t).map MetricRecord.fields).isSome := by
    cases findDoc? coll s t <;> rfl
  rw [h1, h, chainFields_isSome, ← h2]

theorem length_bulkWrite_of_keys (ms : List MetricRecord) (coll : List MetricRecord)
    (h : ∀ m ∈ ms, (findDoc? coll m.source m.date).isSome = true) :
    (bulkWrite coll ms).length = coll.length := by
  induction ms generalizing coll with
  | nil => rfl
  | cons m ms ih =>
      have hm := h m (List.mem_cons_self m ms)
      have hb : bulkWrite coll (m :: ms) = bulkWrite (applyUpsert coll m) ms := rfl
      rw [hb, ih]
      · rw [length_applyUpsert, if_pos hm]
      · intro m' hm'
        rw [isSome_findDoc?_applyUpsert]
        simp [h m' (List.mem_cons_of_mem _ hm')]

theorem chainFields_eq_flat (m : MetricRecord) (ms : List MetricRecord)
    (v : Option (List (String × String))) :
    chainFields v (m :: ms) = some (setFields (v.getD []) (flatFields (m :: ms))) := by
  induction ms generalizing v m with
  | nil => simp [chainFields, flatFields, setFields]
  | cons m' ms ih =>
      rw [chainFields_cons, ih]
      simp [flatFields, setFields, List.foldl_append]

theorem chainFields_idem_lookup (L : List MetricRecord)
    (v : Option (List (String × String))) (x : String) :
    (chainFields (chainFields v L) L).bind (fun fs => fieldLookup fs x) =
      (chainFields v L).bind (fun fs => fieldLookup fs x) := by
  cases L with
  | nil => rfl
  | cons m ms =>
      rw [chainFields_eq_flat m ms v, chainFields_eq_flat m ms]
      simp [fieldLookup_setFields_idem]

/-! ## Claim theorems -/

/-- C6: `parseDate` resolves a numeric epoch, an epoch given as a numeric
string, and the formats "YYYY/MM/DD", "YYYY-MM-DD" and
"YYYY-MM-DD HH:MM:SS" to valid dates; "not-a-date" resolves to no value,
and normalization skips the containing record instead of failing the
batch. -/
theorem c6_parse_date_formats :
    (parseDate (.str "2024-01-15")).isSome = true ∧
    (parseDate (.str "2024/01/15")).isSome = true ∧
    (parseDate (.str "2024-01-15 08:30:00")).isSome = true ∧
    (parseDate (.num 1705300000000)).isSome = true ∧
    (parseDate (.str "1705300000000")).isSome = true ∧
    parseDate (.str "not-a-date") = none ∧
    normalizeRawRecord
      { source := "Apple Watch", timestamp := .str "not-a-date",
        fields := [("qty", "70")] } = none ∧
    mapMetric
      { name := "heart_rate", units := "count/min",
        data := [{ source := "Apple Watch", timestamp := .str "not-a-date",
                   fields := [("qty", "70")] },
                 { source := "Apple Watch", timestamp := .str "2024-01-15",
                   fields := [("qty", "71")] }] } =
      [{ source := "Apple Watch", date := 1705276800000, fields := [("qty", "71")] }] := by
  decide

/-- C10: `parseDate` returns null for every falsy input (the number 0,
the empty string, `undefined`), so epoch 0, although within the
representable JS Date range, is treated as invalid and a record
timestamped exactly at the Unix epoch is dropped by normalization. -/
theorem c10_falsy_parse_date :
    parseDate (.num 0) = none ∧
    parseDate (.str "") = none ∧
    parseDate .undef = none ∧
    jsTimeValid 0 = true ∧
    normalizeRawRecord
      { source := "Apple Watch", timestamp := .num 0,
        fields := [("qty", "70")] } = none := by
  decide

/-- C5: an ingestion request whose top-level payload is missing fails
fast: the response is the single top-level error object with status 500,
no grouped outcome, and the store is returned untouched (no
normalization or group processing ran). -/
theorem c5_structural_failure (env : StoreEnv) (st : ServerState) :
    ingestData env st none =
      (500, HttpBody.topError "Failed to process request" "No data provided", st) := rfl

/-- C1: normalizing and writing the identical metric batch twice yields
the same stored document count and the same field values as writing it
once, in every kind's collection: each write is an upsert whose filter
is the (source, timestamp) pair, so re-ingesting a key overwrites the
prior record instead of duplicating it.  Field values are compared at
every key and field name; a found document's key fields equal the looked
up key by construction of `findDoc?`. -/
theorem c1_normalize_write_idempotent (store : MetricStore) (batch : List RawMetricBatch) :
    (∀ kind, (metricsWrite (metricsWrite store batch) batch kind).length =
        (metricsWrite store batch kind).length) ∧
    (∀ kind (s : String) (t : Int),
        (findDoc? (metricsWrite (metricsWrite store batch) batch kind) s t).isSome =
          (findDoc? (metricsWrite store batch kind) s t).isSome) ∧
    (∀ kind (s : String) (t : Int) (x : String),
        docFieldLookup (findDoc? (metricsWrite (metricsWrite store batch) batch kind) s t) x =
          docFieldLookup (findDoc? (metricsWrite store batch kind) s t) x) := by
  refine ⟨fun kind => ?_, fun kind s t => ?_, fun kind s t x => ?_⟩
  · show (bulkWrite (bulkWrite (store kind) (mapMetricAll batch kind))
        (mapMetricAll batch kind)).length = (bulkWrite (store kind) (mapMetricAll batch kind)).length
    apply length_bulkWrite_of_keys
    intro m hm
    rw [isSome_findDoc?_bulkWrite]
    have hmem : m ∈ keyRecs (mapMetricAll batch kind) m.source m.date := by
      simp [keyRecs, hm]
    have hne : (keyRecs (mapMetricAll batch kind) m.source m.date).isEmpty = false := by
      cases hk : keyRecs (mapMetricAll batch kind) m.source m.date with
      | nil => rw [hk] at hmem; cases hmem
      | cons a b => rfl
    simp [hne]
  · show (findDoc? (bulkWrite (bulkWrite (store kind) (mapMetricAll batch kind))
        (mapMetricAll batch kind)) s t).isSome =
      (findDoc? (bulkWrite (store kind) (mapMetricAll batch kind)) s t).isSome
    rw [isSome_findDoc?_bulkWrite, isSome_findDoc?_bulkWrite]
    cases (findDoc? (store kind) s t).isSome <;>
      cases (keyRecs (mapMetricAll batch kind) s t).isEmpty <;> simp
  · rw [docFieldLookup_eq_map, docFieldLookup_eq_map]
    show ((findDoc? (bulkWrite (bulkWrite (store kind) (mapMetricAll batch kind))
        (mapMetricAll batch kind)) s t).map MetricRecord.fields).bind
          (fun fs => fieldLookup fs x) =
      ((findDoc? (bulkWrite (store kind) (mapMetricAll batch kind)) s t).map
          MetricRecord.fields).bind (fun fs => fieldLookup fs x)
    rw [findDoc?_bulkWrite, findDoc?_bulkWrite]
    exact chainFields_idem_lookup _ _ x

/-- C8 counterexample: upserting a record without a `metadata` field
over an existing document with the same (source, date) key leaves the
prior document's `metadata` field in place: the update is a dollar-set
merge, not a full replace, so the stored document does not carry exactly
the new record's fields. -/
theorem c8_set_merge_counterexample :
    fieldLookup recNoMeta.fields "metadata" = none ∧
    docFieldLookup (findDoc? (applyUpsert collMeta recNoMeta)
      recNoMeta.source recNoMeta.date) "metadata" = some "x" ∧
    docFieldLookup (findDoc? (applyUpsert collMeta recNoMeta)
      recNoMeta.source recNoMeta.date) "qty" = some "2" ∧
    (applyUpsert collMeta recNoMeta).length = 1 := by
  decide

/-- C8 amended: a metric upsert over an existing document with the same
(source, timestamp) key creates no new document and applies the
dollar-set merge: every field assigned by the new record takes the new
record's (last) assigned value, and every other field keeps the prior
document's value. -/
theorem c8_set_merge (coll : List MetricRecord) (m : MetricRecord)
    (h : (findDoc? coll m.source m.date).isSome = true) :
    (applyUpsert coll m).length = coll.length ∧
    ∀ x, docFieldLookup (findDoc? (applyUpsert coll m) m.source m.date) x =
        orOpt (lastAssign m.fields x) (docFieldLookup (findDoc? coll m.source m.date) x) := by
  constructor
  · rw [length_applyUpsert, if_pos h]
  · intro x
    rw [findDoc?_applyUpsert, if_pos ⟨rfl, rfl⟩]
    obtain ⟨d, hd⟩ := Option.isSome_iff_exists.mp h
    rw [hd]
    simp [docFieldLookup, fieldLookup_setFields]

/-- Witness for `c8_set_merge` at the concrete collection and record of
the counterexample. -/
theorem c8_set_merge_witness :
    (findDoc? collMeta recNoMeta.source recNoMeta.date).isSome = true ∧
    (applyUpsert collMeta recNoMeta).length = collMeta.length ∧
    docFieldLookup (findDoc? (applyUpsert collMeta recNoMeta)
        recNoMeta.source recNoMeta.date) "metadata" =
      orOpt (lastAssign recNoMeta.fields "metadata")
        (docFieldLookup (findDoc? collMeta recNoMeta.source recNoMeta.date) "metadata") := by
  refine ⟨by decide, (c8_set_merge collMeta recNoMeta (by decide)).1,
    (c8_set_merge collMeta recNoMeta (by decide)).2 "metadata"⟩

/-- C2: with a present payload the status is 200 exactly when every
group outcome of the merged response succeeded, 207 exactly when the
outcomes are mixed, and 500 exactly when every outcome failed; the body
is the grouped response.  A structurally invalid request (no payload)
yields 500 with the top-level error body instead of a grouped outcome. -/
theorem c2_status_policy (env : StoreEnv) (st : ServerState) (data : IngestData) :
    ((ingestData env st (some data)).1 = 200 ↔
        ((saveMetricsOutcome env (data.metrics.getD [])).success = true ∧
         (saveWorkoutsOutcome env (data.workouts.getD [])).success = true)) ∧
    ((ingestData env st (some data)).1 = 207 ↔
        (((saveMetricsOutcome env (data.metrics.getD [])).success = false ∨
          (saveWorkoutsOutcome env (data.workouts.getD [])).success = false) ∧
         ((saveMetricsOutcome env (data.metrics.getD [])).success = true ∨
          (saveWorkoutsOutcome env (data.workouts.getD [])).success = true))) ∧
    ((ingestData env st (some data)).1 = 500 ↔
        ((saveMetricsOutcome env (data.metrics.getD [])).success = false ∧
         (saveWorkoutsOutcome env (data.workouts.getD [])).success = false)) ∧
    (ingestData env st (some data)).2.1 =
      HttpBody.grouped
        { metrics := some (saveMetricsOutcome env (data.metrics.getD [])),
          workouts := some (saveWorkoutsOutcome env (data.workouts.getD [])) } ∧
    (ingestData env st none).1 = 500 ∧
    (ingestData env st none).2.1 =
      HttpBody.topError "Failed to process request" "No data provided" := by
  cases hm : (saveMetricsOutcome env (data.metrics.getD [])).success <;>
    cases hw : (saveWorkoutsOutcome env (data.workouts.getD [])).success <;>
      simp [ingestData, hm, hw]

/-- C4 counterexample: a supplied `maxHeartRate`/`avgHeartRate` of `0`
is falsy in JS, so the guard `!maxHeartRate` treats it as absent and the
derivation runs, overwriting the supplied value. -/
theorem comp_conv_Max : HRSampleDoc.Max ∘ convHRSample = RawHRSample.Max := rfl

theorem comp_conv_Avg : HRSampleDoc.Avg ∘ convHRSample = RawHRSample.Avg := rfl

theorem c4_zero_overwritten_counterexample :
    wZero.maxHeartRate = some 0 ∧ wZero.avgHeartRate = some 0 ∧
    (mapWorkoutData wZero).maxHeartRate = some 90 ∧
    (mapWorkoutData wZero).avgHeartRate = some 70 := by
  refine ⟨rfl, rfl, by decide, ?_⟩
  norm_num [mapWorkoutData, wZero, hrS1, jsTruthyQ, convHRSample, qSum, roundTo2]

/-- C4 amended: with a non-empty heart-rate series, an absent
`maxHeartRate` is derived as the maximum of the samples' `Max` values
and an absent `avgHeartRate` as the mean of the samples' `Avg` values
rounded to two decimals; a supplied non-zero value is never overwritten
(a supplied `0`, being falsy, is treated as absent — see the
counterexample). -/
theorem c4_heart_rate_derivation :
    (∀ (w : RawWorkout) (l : List RawHRSample), w.heartRateData = some l → l ≠ [] →
        ((w.maxHeartRate = none →
            (mapWorkoutData w).maxHeartRate = some (listMaxQ (l.map RawHRSample.Max))) ∧
         (w.avgHeartRate = none →
            (mapWorkoutData w).avgHeartRate =
              some (roundTo2 (qSum (l.map RawHRSample.Avg) / (l.length : ℚ)))))) ∧
    (∀ (w : RawWorkout) (v : ℚ), w.maxHeartRate = some v → v ≠ 0 →
        (mapWorkoutData w).maxHeartRate = some v) ∧
    (∀ (w : RawWorkout) (v : ℚ), w.avgHeartRate = some v → v ≠ 0 →
        (mapWorkoutData w).avgHeartRate = some v) := by
  refine ⟨fun w l hhr hne => ⟨fun hmax => ?_, fun havg => ?_⟩,
    fun w v hv hv0 => ?_, fun w v hv hv0 => ?_⟩
  · cases l with
    | nil => exact absurd rfl hne
    | cons a t =>
        simp [mapWorkoutData, hhr, hmax, jsTruthyQ, convHRSample, List.map_map,
          comp_conv_Max]
  · cases l with
    | nil => exact absurd rfl hne
    | cons a t =>
        simp [mapWorkoutData, hhr, havg, jsTruthyQ, convHRSample, List.map_map,
          comp_conv_Avg]
  · simp [mapWorkoutData, hv, jsTruthyQ, hv0]
  · simp [mapWorkoutData, hv, jsTruthyQ, hv0]

/-- Witness for `c4_heart_rate_derivation` at the spec's worked example:
samples (60,70,90) and (62,74,95) derive maxHeartRate 95 and
avgHeartRate 72. -/
theorem c4_heart_rate_witness :
    wEx.heartRateData = some [hrS1, hrS2] ∧ wEx.maxHeartRate = none ∧
    wEx.avgHeartRate = none ∧
    (mapWorkoutData wEx).maxHeartRate = some 95 ∧
    (mapWorkoutData wEx).avgHeartRate = some 72 := by
  have h := c4_heart_rate_derivation.1 wEx [hrS1, hrS2] rfl (by simp)
  refine ⟨rfl, rfl, rfl, ?_, ?_⟩
  · rw [h.1 rfl]
    norm_num [listMaxQ, hrS1, hrS2]
  · rw [h.2 rfl]
    norm_num [qSum, roundTo2, hrS1, hrS2]

/-- C9: a raw workout with a non-empty location sequence yields a route
with the same workout identifier and the location array with resolved
timestamps; an empty or absent raw sequence yields no route at all; and
every route `saveWorkouts` stores satisfies the `routeSchema` validator
(its locations array is non-empty). -/
theorem c9_route_extraction :
    (∀ (w : RawWorkout) (l : List RawLocation), w.id ≠ "" → w.route = some l → l ≠ [] →
        (mapRoute w).workoutId = w.id ∧
        (mapRoute w).locations = some (l.map convLocation) ∧
        routeFor w = some { workoutId := w.id, locations := l.map convLocation }) ∧
    (∀ w : RawWorkout, w.route = some [] ∨ w.route = none → routeFor w = none) ∧
    (∀ (ws : List RawWorkout) (r : StoredRoute), r ∈ routesToStore ws →
        validRouteLocations r.locations = true) := by
  refine ⟨fun w l hid hroute hne => ?_, fun w h => ?_, fun ws r hr => ?_⟩
  · cases l with
    | nil => exact absurd rfl hne
    | cons a t =>
        refine ⟨rfl, ?_, ?_⟩
        · simp [mapRoute, hroute]
        · simp [routeFor, mapRoute, hid, hroute]
  · rcases h with h | h <;> by_cases hid : w.id = "" <;> simp [routeFor, mapRoute, hid, h]
  · rcases List.mem_filterMap.mp hr with ⟨w, hw, hfw⟩
    unfold routeFor at hfw
    by_cases hid : w.id = ""
    · rw [if_pos hid] at hfw
      cases hfw
    · rw [if_neg hid] at hfw
      revert hfw
      cases hloc : (mapRoute w).locations with
      | none => intro hfw; cases hfw
      | some l =>
          cases l with
          | nil => intro hfw; cases hfw
          | cons a t =>
              intro hfw
              have hr' : r = { workoutId := (mapRoute w).workoutId, locations := a :: t } :=
                (Option.some.inj hfw).symm
              rw [hr']
              simp [validRouteLocations]

/-- Witness for `c9_route_extraction` at a workout with a one-point
route. -/
theorem c9_route_witness :
    wR.id ≠ "" ∧ wR.route = some [loc1] ∧ [loc1] ≠ ([] : List RawLocation) ∧
    routeFor wR = some { workoutId := wR.id, locations := [loc1].map convLocation } := by
  refine ⟨by decide, rfl, by simp, ?_⟩
  exact ((c9_route_extraction.1 wR [loc1] (by decide) rfl (by simp)).2).2

/-- C3 counterexample: a batch with two kinds where only the heart-rate
kind's bulk write fails.  The step-count kind's documents are still
written (the writes are independent), but the single merged outcome
covering the step-count kind — the whole metrics group outcome — has
success = false, so the failure does affect the outcome reported for the
other kind. -/
theorem c3_kind_failure_counterexample :
    batchAB.map RawMetricBatch.name = ["heart_rate", "step_count"] ∧
    envFailHR.failKind "heart_rate" = true ∧
    envFailHR.failKind "step_count" = false ∧
    saveMetricsStore envFailHR emptyStore batchAB "step_count" =
      [{ source := "Apple Watch", date := 2000, fields := [("qty", "12")] }] ∧
    saveMetricsOutcome envFailHR batchAB =
      { success := false, message := none,
        error := some (writeErrorMessage "heart_rate") } := by
  refine ⟨rfl, rfl, rfl, rfl, rfl⟩

/-- C3 amended: each kind's bulk write is independent — a kind whose own
write does not fail receives exactly its group's bulk write, whatever
happens to other kinds — but the response carries one outcome for the
whole metrics group, which succeeds exactly when no kind present in the
batch failed. -/
theorem c3_kind_independence (env : StoreEnv) (store : MetricStore)
    (batch : List RawMetricBatch) (hne : batch ≠ []) :
    (∀ kind, env.failKind kind = false →
        saveMetricsStore env store batch kind =
          bulkWrite (store kind) (mapMetricAll batch kind)) ∧
    ((saveMetricsOutcome env batch).success = true ↔
        ∀ k ∈ kindsOf batch, env.failKind k = false) := by
  have hb : batch.isEmpty = false := by
    cases batch with
    | nil => exact absurd rfl hne
    | cons a t => rfl
  constructor
  · intro kind hk
    simp [saveMetricsStore, hb, hk]
  · simp only [saveMetricsOutcome, hb, Bool.false_eq_true, if_false]
    cases hf : (kindsOf batch).find? env.failKind with
    | some k =>
        have hpk : env.failKind k = true := List.find?_some hf
        have hmem : k ∈ kindsOf batch := List.mem_of_find?_eq_some hf
        simp only [Bool.false_eq_true, false_iff]
        intro hall
        rw [hall k hmem] at hpk
        exact Bool.noConfusion hpk
    | none =>
        simp only [true_iff]
        intro k hkmem
        have := List.find?_eq_none.mp hf k hkmem
        simpa using this

/-- Witness for `c3_kind_independence` at the two-kind batch of the
counterexample. -/
theorem c3_kind_independence_witness :
    batchAB ≠ [] ∧
    (envFailHR.failKind "step_count" = false →
        saveMetricsStore envFailHR emptyStore batchAB "step_count" =
          bulkWrite (emptyStore "step_count") (mapMetricAll batchAB "step_count")) ∧
    ((saveMetricsOutcome envFailHR batchAB).success = true ↔
        ∀ k ∈ kindsOf batchAB, envFailHR.failKind k = false) := by
  refine ⟨by decide, ?_, ?_⟩
  · exact fun h =>
      (c3_kind_independence envFailHR emptyStore batchAB (by decide)).1 "step_count" h
  · exact (c3_kind_independence envFailHR emptyStore batchAB (by decide)).2

/-- C7 counterexample: the empty-metrics outcome carries no `message`
field at all; the no-records text ("No metrics data provided") is in the
`error` field. -/
theorem c7_no_message_counterexample :
    saveMetricsOutcome envOk [] =
      { success := true, message := none, error := some "No metrics data provided" } ∧
    (saveMetricsOutcome envOk []).message = none := ⟨rfl, rfl⟩

/-- C7 amended: an empty metrics group yields a metrics outcome with
success = true carrying the no-data text in its `error` field (not in
`message`), without touching the metric store, and the workouts group is
still processed normally, so with a non-empty valid workouts group the
whole call answers 200 with workouts success = true. -/
theorem c7_empty_metrics (env : StoreEnv) (st : ServerState) (data : IngestData)
    (hm : data.metrics.getD [] = []) (hw : data.workouts.getD [] ≠ [])
    (hfail : env.failWorkouts = false) :
    (ingestData env st (some data)).2.1 =
      HttpBody.grouped
        { metrics := some { success := true, message := none,
                            error := some "No metrics data provided" },
          workouts := some { success := true,
                             message := some (toString (data.workouts.getD []).length ++
                               " workouts saved successfully"),
                             error := none } } ∧
    (ingestData env st (some data)).2.2.metricColls = st.metricColls ∧
    (ingestData env st (some data)).1 = 200 := by
  have hwb : (data.workouts.getD []).isEmpty = false := by
    cases h : data.workouts.getD [] with
    | nil => exact absurd h hw
    | cons a t => rfl
  refine ⟨?_, ?_, ?_⟩ <;>
    simp [ingestData, saveMetricsOutcome, saveWorkoutsOutcome, saveMetricsStore,
      hm, hwb, hfail]

/-- Witness for `c7_empty_metrics` at a payload with no metrics and one
valid workout. -/
theorem c7_empty_metrics_witness :
    dataC7.metrics.getD [] = [] ∧ dataC7.workouts.getD [] ≠ [] ∧
    envOk.failWorkouts = false ∧
    (ingestData envOk st0 (some dataC7)).1 = 200 ∧
    (ingestData envOk st0 (some dataC7)).2.2.metricColls = st0.metricColls := by
  refine ⟨rfl, by simp [dataC7], rfl, ?_, ?_⟩
  · exact (c7_empty_metrics envOk st0 dataC7 rfl (by simp [dataC7]) rfl).2.2
  · exact (c7_empty_metrics envOk st0 dataC7 rfl (by simp [dataC7]) rfl).2.1
